import Mathlib

/-!
Verification of the Tetris game engine (`src/types.ts`, `src/utility.ts`,
`src/main.ts`) against its natural-language specification.

The TypeScript source is shallowly embedded below.  JS numbers are IEEE-754
doubles and the RNG expression `(a * seed + c) % m` is modelled bit-exactly:
`fl53` rounds each integer-valued intermediate to the nearest double (53-bit
mantissa, ties to even; the identity below `2^53`), and the remainder is
exact.  Every product `a * seed` reachable from the game's 31-bit seeds (the
spec's seed data model) stays below `2^62`, where each double is an integer,
so the whole hash is an integer function `Nat → Nat`; note that above `2^53`
the rounding makes the hash differ from the exact linear congruential value.
Board coordinates are `Int`, and `RNG.scale`, which divides a hash by
`M - 1`, lands in `ℚ`.  `Math.floor` on a quotient of naturals is `Nat`
division (proved below as `drawIndex_eq_div`).  Arrays are `List`s; a JS
read `a[i]` that can fall out of range is modelled with `List.getD`
together with the observation, made at each use site, of what the JS
undefined would do there.
-/

/-! ## Data model (src/types.ts) -/

/-- `Viewport.CANVAS_WIDTH` -/
def Viewport.CANVAS_WIDTH : Int := 200

/-- `Viewport.CANVAS_HEIGHT` -/
def Viewport.CANVAS_HEIGHT : Int := 400

/-- `Constants.GRID_WIDTH` -/
def Constants.GRID_WIDTH : Nat := 10

/-- `Constants.GRID_HEIGHT` -/
def Constants.GRID_HEIGHT : Nat := 20

/-- `Constants.LEVEL_UP_LINES` -/
def Constants.LEVEL_UP_LINES : Nat := 5

/-- `Block.WIDTH = CANVAS_WIDTH / GRID_WIDTH = 20` -/
def Block.WIDTH : Int := 20

/-- `Block.HEIGHT = CANVAS_HEIGHT / GRID_HEIGHT = 20` -/
def Block.HEIGHT : Int := 20

/-- The seven block kinds of `enum BlockType`, in declaration order. -/
inductive BlockType where
  | SQUARE
  | L_SHAPE1
  | L_SHAPE2
  | T_SHAPE
  | LINE
  | Z_SHAPE1
  | Z_SHAPE2
deriving DecidableEq, Repr

/-- A cell coordinate `{x, y}` in canvas units. -/
structure Cell where
  x : Int
  y : Int
deriving DecidableEq, Repr

/-- `FallingBlock = { cells, colour, type }`. -/
structure FallingBlock where
  cells : List Cell
  colour : String
  type : BlockType
deriving DecidableEq, Repr

/-- `BlockCell = { placed, colour }`, one cell of the placed grid. -/
structure BlockCell where
  placed : Bool
  colour : String
deriving DecidableEq, Repr

/-- The immutable game state (src/types.ts `State`). -/
structure State where
  gameEnd : Bool
  fallingBlock : FallingBlock
  placedBlocks : List (List BlockCell)
  level : Nat
  linesCleared : Nat
  score : Nat
  highScore : Nat
  nextBlock : FallingBlock
  heldBlock : Option FallingBlock
  blockHeldDuringFall : Bool
  currentSeed : Nat
  currentBag : List BlockType
deriving DecidableEq, Repr

/-! ## IEEE-754 double rounding

The RNG multiplies a 31-bit seed by a 31-bit constant, so the intermediate
products leave the `2^53` range in which doubles are exact; each arithmetic
step of `(a * seed + c) % m` rounds its true result to the nearest double.
On integer inputs (all that the hash ever produces) that rounding is the
integer function below. -/

/-- Round a natural number to the nearest IEEE-754 double: exact below
`2^53`; above, round to the nearest multiple of the unit in the last place
`2^(log2 n - 52)`, ties to the even mantissa.  (The magnitudes reached by
the hash stay far below the `2^1024` overflow threshold.) -/
def fl53 (n : Nat) : Nat :=
  if n < 2 ^ 53 then n
  else if 2 * (n % 2 ^ (Nat.log2 n - 52)) < 2 ^ (Nat.log2 n - 52) then
    n / 2 ^ (Nat.log2 n - 52) * 2 ^ (Nat.log2 n - 52)
  else if 2 ^ (Nat.log2 n - 52) < 2 * (n % 2 ^ (Nat.log2 n - 52)) then
    (n / 2 ^ (Nat.log2 n - 52) + 1) * 2 ^ (Nat.log2 n - 52)
  else if n / 2 ^ (Nat.log2 n - 52) % 2 = 0 then
    n / 2 ^ (Nat.log2 n - 52) * 2 ^ (Nat.log2 n - 52)
  else (n / 2 ^ (Nat.log2 n - 52) + 1) * 2 ^ (Nat.log2 n - 52)

/-! ## RNG (src/utility.ts, class RNG) -/

namespace RNG

/-- `RNG.m = 0x80000000 = 2^31` -/
def m : Nat := 0x80000000

/-- `RNG.a = 1738123921` -/
def a : Nat := 1738123921

/-- `RNG.c = 15959` -/
def c : Nat := 15959

/-- `RNG.hash = seed => (a * seed + c) % m`, evaluated as JS does: the
product `a * seed` rounds to a double, the sum with `c` rounds again, and
`%` is exact.  (At seed 181070632, for example, the exact congruential
value would be `m - 1`, but the double product rounds up by 24, the sum
rounds down, and the JS result is 0.) -/
def hash (seed : Nat) : Nat := fl53 (fl53 (a * seed) + c) % m

/-- `RNG.scale = hash => hash / (m - 1)` -/
def scale (h : Nat) : ℚ := (h : ℚ) / ((m : ℚ) - 1)

end RNG

/-! ## Bag generator (src/utility.ts) -/

/-- `Math.floor(RNG.scale(RNG.hash(seed)) * len)`, the random index used both
by `drawFromBag` (len = bag length) and by each `shuffleBag` swap
(len = remaining). -/
def drawIndex (seed : Nat) (len : Nat) : Nat :=
  (⌊RNG.scale (RNG.hash seed) * (len : ℚ)⌋).toNat

/-- `Object.values(BlockType)` filtered to numbers: the seven kinds in
declaration order. -/
def blockTypesList : List BlockType :=
  [.SQUARE, .L_SHAPE1, .L_SHAPE2, .T_SHAPE, .LINE, .Z_SHAPE1, .Z_SHAPE2]

/-- One swap of the shuffle (the `acc.map` at src/utility.ts:79-83): the cell
at `remaining - 1` receives `acc[randomIndex]`, the cell at `randomIndex`
receives `acc[remaining - 1]`, everything else is kept.  A JS out-of-range
read `acc[randomIndex]` would require `randomIndex = remaining`, i.e. a
hash equal to `m - 1`, which `RNG.hash_ne_max` below shows the double
arithmetic never produces; the `getD` default stands for that unreachable
`undefined`. -/
def shuffleSwap (acc : List BlockType) (remaining randomIndex : Nat) : List BlockType :=
  acc.enum.map fun p =>
    if p.1 = remaining - 1 then acc.getD randomIndex .SQUARE
    else if p.1 = randomIndex then acc.getD (remaining - 1) .SQUARE
    else p.2

/-- One step of the `reduce` in `shuffleBag`, threading `(acc, seed)`. -/
def shuffleStep (p : List BlockType × Nat) (currentIndex : Nat) : List BlockType × Nat :=
  let remaining := p.1.length - currentIndex
  let randomIndex := drawIndex p.2 remaining
  (shuffleSwap p.1 remaining randomIndex, RNG.hash p.2)

/-- `shuffleBag(seed)` (src/utility.ts:66-87): a Fisher-Yates-style shuffle of
the seven kinds, advancing the seed once per swap. -/
def shuffleBag (seed : Nat) : List BlockType :=
  ((List.range blockTypesList.length).foldl shuffleStep (blockTypesList, seed)).1

/-! ## Block geometry (src/types.ts constructors) -/

/-- `squareBlock()` -/
def squareBlock : FallingBlock :=
  { cells := [⟨100, 0⟩, ⟨80, 0⟩, ⟨100, 20⟩, ⟨80, 20⟩]
    colour := "#FFFF00", type := .SQUARE }

/-- `lShapeBlock1()` -/
def lShapeBlock1 : FallingBlock :=
  { cells := [⟨60, 20⟩, ⟨80, 20⟩, ⟨60, 0⟩, ⟨100, 20⟩]
    colour := "#0000FF", type := .L_SHAPE1 }

/-- `lShapeBlock2()` -/
def lShapeBlock2 : FallingBlock :=
  { cells := [⟨60, 20⟩, ⟨80, 20⟩, ⟨100, 0⟩, ⟨100, 20⟩]
    colour := "#FFA500", type := .L_SHAPE2 }

/-- `tShapeBlock()` -/
def tShapeBlock : FallingBlock :=
  { cells := [⟨60, 20⟩, ⟨80, 20⟩, ⟨100, 20⟩, ⟨80, 0⟩]
    colour := "#FF00FF", type := .T_SHAPE }

/-- `zShapeBlock1()` -/
def zShapeBlock1 : FallingBlock :=
  { cells := [⟨60, 20⟩, ⟨80, 20⟩, ⟨100, 0⟩, ⟨80, 0⟩]
    colour := "#00FF00", type := .Z_SHAPE1 }

/-- `zShapeBlock2()` -/
def zShapeBlock2 : FallingBlock :=
  { cells := [⟨60, 0⟩, ⟨80, 20⟩, ⟨100, 20⟩, ⟨80, 0⟩]
    colour := "#FF0000", type := .Z_SHAPE2 }

/-- `lineBlock()` -/
def lineBlock : FallingBlock :=
  { cells := [⟨80, 0⟩, ⟨100, 0⟩, ⟨120, 0⟩, ⟨60, 0⟩]
    colour := "#00FFFF", type := .LINE }

/-- `createFallingBlock(type)`: the `blockConfigurations` lookup table. -/
def createFallingBlock : BlockType → FallingBlock
  | .SQUARE => squareBlock
  | .L_SHAPE1 => lShapeBlock1
  | .L_SHAPE2 => lShapeBlock2
  | .T_SHAPE => tShapeBlock
  | .Z_SHAPE1 => zShapeBlock1
  | .Z_SHAPE2 => zShapeBlock2
  | .LINE => lineBlock

/-! ## drawFromBag (src/utility.ts:39-64) -/

/-- `DrawResult` -/
structure DrawResult where
  drawnBlock : FallingBlock
  newSeed : Nat
  newBag : List BlockType
deriving DecidableEq, Repr

/-- The seed actually used for the draw: when the bag is empty the source
first reassigns `seed = RNG.hash(seed)` (after reshuffling with the old
seed). -/
def effSeed (seed : Nat) (bag : List BlockType) : Nat :=
  if bag.length = 0 then RNG.hash seed else seed

/-- The bag actually drawn from: when the incoming bag is empty the source
replaces it with `shuffleBag(seed)` (using the old seed). -/
def effBag (seed : Nat) (bag : List BlockType) : List BlockType :=
  if bag.length = 0 then shuffleBag seed else bag

/-- `drawFromBag(seed, currentBag)`: reshuffle when empty, then remove the
cell at `randomIndex` (`slice(0, i) ++ slice(i + 1)` is `take i ++ drop
(i + 1)`).  A JS out-of-range read `currentBag[randomIndex]` would require
a hash equal to `m - 1`, which `RNG.hash_ne_max` below shows the double
arithmetic never produces; the `getD` default stands for that unreachable
`undefined`. -/
def drawFromBag (seed : Nat) (currentBag : List BlockType) : DrawResult :=
  let seed1 := effSeed seed currentBag
  let bag1 := effBag seed currentBag
  let randomIndex := drawIndex seed1 bag1.length
  let newSeed := RNG.hash seed1
  let drawnType := bag1.getD randomIndex .SQUARE
  let newBag := bag1.take randomIndex ++ bag1.drop (randomIndex + 1)
  { drawnBlock := createFallingBlock drawnType, newSeed := newSeed, newBag := newBag }

/-! ## Collision checking (src/utility.ts:95-116) -/

/-- The placed-cell lookup `placedBlocks[yIndex] && placedBlocks[yIndex][xIndex]
&& placedBlocks[yIndex][xIndex].placed`: false whenever either index misses
(JS `undefined` is falsy), otherwise the cell's `placed` flag.  `canMove`,
`canMoveDown` and `tick` write the second conjunct without the
`placedBlocks[yIndex][xIndex] &&` guard; at their use sites the x index has
already passed the canvas bound check (or the row itself is missing), so the
guarded form used here has the same value. -/
def cellPlaced (grid : List (List BlockCell)) (yIndex xIndex : Int) : Bool :=
  if 0 ≤ yIndex ∧ yIndex < (grid.length : Int)
     ∧ 0 ≤ xIndex ∧ xIndex < ((grid.getD yIndex.toNat []).length : Int) then
    ((grid.getD yIndex.toNat []).getD xIndex.toNat ⟨false, ""⟩).placed
  else false

/-- `isValidPosition(block, placedBlocks)`: no cell outside the canvas and no
cell on a placed grid cell.  The source counts the invalid cells with
`filter` and compares the count with 0. -/
def isValidPosition (block : FallingBlock) (placedBlocks : List (List BlockCell)) : Bool :=
  (block.cells.filter fun cell =>
    if cell.x < 0 ∨ Viewport.CANVAS_WIDTH ≤ cell.x then true
    else if cell.y < 0 ∨ Viewport.CANVAS_HEIGHT ≤ cell.y then true
    else cellPlaced placedBlocks (Int.fdiv cell.y Block.HEIGHT)
           (Int.fdiv cell.x Block.WIDTH)).length == 0

/-! ## Rotation (src/state.ts part of utility source, lines 162-237) -/

/-- `isHorizontalLineBlock(xCoords)`: the block spans 4 distinct
x-coordinates.  The JS `Set` built from the x-coordinates is modelled by
`dedup`; only its size is ever used. -/
def isHorizontalLineBlock (xCoords : List Int) : Bool :=
  xCoords.dedup.length == 4

/-- `generateRotatedCells(cells, pivot, isLineHorizontal)` -/
def generateRotatedCells (cells : List Cell) (pivot : Cell) (isLineHorizontal : Bool) :
    List Cell :=
  cells.map fun cell =>
    let relativeX := cell.x - pivot.x
    let relativeY := cell.y - pivot.y
    let newRelativeCoords : Cell :=
      if isLineHorizontal then ⟨relativeY, -relativeX⟩ else ⟨-relativeY, relativeX⟩
    ⟨pivot.x + newRelativeCoords.x, pivot.y + newRelativeCoords.y⟩

/-- Wall-kick offsets tried for a horizontal line block. -/
def lineBlockWallKickTests : List Cell :=
  [⟨0, 0⟩, ⟨-1, 0⟩, ⟨2, 0⟩, ⟨-2, 0⟩, ⟨0, 1⟩, ⟨0, -1⟩, ⟨-1, 2⟩, ⟨1, -2⟩]

/-- Wall-kick offsets tried for every other non-square block. -/
def standardWallKickTests : List Cell :=
  [⟨0, 0⟩, ⟨1, 0⟩, ⟨-1, 0⟩, ⟨2, 0⟩, ⟨-2, 0⟩]

/-- The kicked candidate block: every rotated cell offset by `test` in cell
units (`test.x * Block.WIDTH`, `test.y * Block.HEIGHT`). -/
def applyKick (b : FallingBlock) (test : Cell) : FallingBlock :=
  { b with cells := b.cells.map fun cell =>
      ⟨cell.x + test.x * Block.WIDTH, cell.y + test.y * Block.HEIGHT⟩ }

/-- `rotateBlock(s)`: squares (2 distinct x and 2 distinct y coordinates)
return early; otherwise rotate around `cells[1]` (the `getD` default stands
for the JS `undefined` pivot of a block with fewer than 2 cells, which no
claim exercises), commit if valid, else try the wall kicks in order, else
return the state unchanged. -/
def rotateBlock (s : State) : State :=
  let xCoords := (s.fallingBlock.cells.map Cell.x).dedup
  let yCoords := (s.fallingBlock.cells.map Cell.y).dedup
  let pivot := s.fallingBlock.cells.getD 1 ⟨0, 0⟩
  let isLineBlockHorizontal := isHorizontalLineBlock (s.fallingBlock.cells.map Cell.x)
  if xCoords.length == 2 && yCoords.length == 2 then s
  else
    let newCells := generateRotatedCells s.fallingBlock.cells pivot isLineBlockHorizontal
    let rotatedBlock : FallingBlock := { s.fallingBlock with cells := newCells }
    if isValidPosition rotatedBlock s.placedBlocks then
      { s with fallingBlock := rotatedBlock }
    else
      let testsToUse :=
        if isLineBlockHorizontal then lineBlockWallKickTests else standardWallKickTests
      match testsToUse.find? (fun test =>
          isValidPosition (applyKick rotatedBlock test) s.placedBlocks) with
      | some validKick => { s with fallingBlock := applyKick rotatedBlock validKick }
      | none => s

/-! ## Lateral movement (source lines 240-280) -/

/-- The two lateral directions (the source's `"left" | "right"` strings). -/
inductive Direction where
  | left
  | right
deriving DecidableEq, Repr

/-- `canMove(direction)(s)`: a cell is invalid when its shifted x leaves the
canvas or its target grid cell is placed.  The source does not check the
(unchanged) y coordinate against the canvas at all; the collision lookup is
the unguarded `placedBlocks[yIndex] && placedBlocks[yIndex][xIndex].placed`
modelled by `cellPlaced`. -/
def canMove (direction : Direction) (s : State) : Bool :=
  let offsetX := if direction = .left then -Block.WIDTH else Block.WIDTH
  (s.fallingBlock.cells.filter fun cell =>
    let newX := cell.x + offsetX
    if newX < 0 ∨ Viewport.CANVAS_WIDTH ≤ newX then true
    else cellPlaced s.placedBlocks (Int.fdiv cell.y Block.HEIGHT)
           (Int.fdiv newX Block.WIDTH)).length == 0

/-- `move(direction)(s)`: shift every cell horizontally when `canMove` allows
it, otherwise return the state unchanged. -/
def move (direction : Direction) (s : State) : State :=
  let offsetX := if direction = .left then -Block.WIDTH else Block.WIDTH
  if canMove direction s then
    { s with fallingBlock :=
        { s.fallingBlock with cells :=
            s.fallingBlock.cells.map fun cell => ⟨cell.x + offsetX, cell.y⟩ } }
  else s

/-- `moveLeft = move("left")` -/
def moveLeft : State → State := move .left

/-- `moveRight = move("right")` -/
def moveRight : State → State := move .right

/-! ## Vertical movement, hard drop and ghost (source lines 282-348) -/

/-- `canMoveDown(state)`: a cell is invalid when its shifted y reaches the
canvas bottom or its target grid cell is placed. -/
def canMoveDown (state : State) : Bool :=
  (state.fallingBlock.cells.filter fun cell =>
    let newY := cell.y + Block.HEIGHT
    if Viewport.CANVAS_HEIGHT ≤ newY then true
    else cellPlaced state.placedBlocks (Int.fdiv newY Block.HEIGHT)
           (Int.fdiv cell.x Block.WIDTH)).length == 0

/-- `moveBlockDown(state)`: shift every cell of the falling block down one
cell height. -/
def moveBlockDown (state : State) : State :=
  { state with fallingBlock :=
      { state.fallingBlock with cells :=
          state.fallingBlock.cells.map fun cell => ⟨cell.x, cell.y + Block.HEIGHT⟩ } }

/-! ## Hold (source lines 350-386) -/

/-- `holdBlock(s)`: a no-op when `blockHeldDuringFall` is already set;
otherwise rebuild the incoming falling block (held kind if one is held,
else the next block's kind) and the stored held block (the outgoing kind)
with the spawn constructors, refill `nextBlock` from the queue or the bag,
and set the gate. -/
def holdBlock (s : State) : State :=
  if s.blockHeldDuringFall then s
  else
    let shouldUseHeldBlock := s.heldBlock.isSome
    let newFallingBlockType :=
      match s.heldBlock with
      | some held => held.type
      | none => s.nextBlock.type
    let newFallingBlock := createFallingBlock newFallingBlockType
    let d : DrawResult :=
      if shouldUseHeldBlock then
        { drawnBlock := s.nextBlock, newSeed := s.currentSeed, newBag := s.currentBag }
      else drawFromBag s.currentSeed s.currentBag
    { s with
      fallingBlock := newFallingBlock
      heldBlock := some (createFallingBlock s.fallingBlock.type)
      blockHeldDuringFall := true
      nextBlock := d.drawnBlock
      currentSeed := d.newSeed
      currentBag := d.newBag }

/-! ## Line clearing and locking (source lines 471-550) -/

/-- `clearFullRows(s)`: drop every fully placed row, prepend as many empty
rows of `GRID_WIDTH` unplaced cells, add 100 points per cleared row, and
apply the level-up rule.  The `level$.next` push to the external
BehaviorSubject is a rendering-side effect outside the state model. -/
def clearFullRows (s : State) : State :=
  let filteredPlacedBlocks :=
    s.placedBlocks.filter fun row => !((row.filter BlockCell.placed).length == row.length)
  let reducedLinesCleared := s.placedBlocks.length - filteredPlacedBlocks.length
  let emptyRows : List (List BlockCell) :=
    List.replicate reducedLinesCleared
      (List.replicate Constants.GRID_WIDTH { placed := false, colour := "" })
  let updatedPlacedBlocks := emptyRows ++ filteredPlacedBlocks
  let newLinesCleared := s.linesCleared + reducedLinesCleared
  let levelUp := Constants.LEVEL_UP_LINES ≤ newLinesCleared
  { s with
    placedBlocks := updatedPlacedBlocks
    score := s.score + reducedLinesCleared * 100
    level := if levelUp then min (s.level + 1) 6 else s.level
    linesCleared := if levelUp then 0 else newLinesCleared }

/-- Stamp one falling-block cell into the grid:
`acc[yIndex][xIndex] = { placed: true, colour }`.  In-range writes are
modelled exactly; an in-range row with an x index past its end (impossible
for the uniform grids the game builds) would be extended by JS and is left
unchanged here, and a missing row (JS would throw) is also left
unchanged. -/
def stampCell (grid : List (List BlockCell)) (cell : Cell) (colour : String) :
    List (List BlockCell) :=
  let yIndex := Int.fdiv cell.y Block.HEIGHT
  let xIndex := Int.fdiv cell.x Block.WIDTH
  if 0 ≤ yIndex ∧ yIndex < (grid.length : Int) ∧ 0 ≤ xIndex then
    grid.set yIndex.toNat
      ((grid.getD yIndex.toNat []).set xIndex.toNat { placed := true, colour := colour })
  else grid

/-- `handleBlockLocking(s)` (source lines 510-550): stamp the falling block
into a copy of the grid, detect game over on row 0, promote `nextBlock`,
draw a fresh next block, clear the hold gate, and finish with
`clearFullRows`. -/
def handleBlockLocking (s : State) : State :=
  let updatedPlacedBlocks :=
    s.fallingBlock.cells.foldl (fun acc cell => stampCell acc cell s.fallingBlock.colour)
      s.placedBlocks
  let gameEnd := s.fallingBlock.cells.any fun cell => Int.fdiv cell.y Block.HEIGHT == 0
  let d := drawFromBag s.currentSeed s.currentBag
  clearFullRows
    { s with
      gameEnd := gameEnd
      fallingBlock := s.nextBlock
      placedBlocks := updatedPlacedBlocks
      nextBlock := d.drawnBlock
      blockHeldDuringFall := false
      currentSeed := d.newSeed
      currentBag := d.newBag }

/-- `moveHardDown(s)` (source lines 317-324), with an explicit fuel argument
making the unbounded JS recursion total: `none` means the fuel ran out
before the block stopped (which happens for no reachable state given enough
fuel, but is possible in general, e.g. for a block with no cells). -/
def moveHardDown : Nat → State → Option State
  | 0, _ => none
  | fuel + 1, s =>
    if canMoveDown s then moveHardDown fuel (moveBlockDown s)
    else some (handleBlockLocking s)

/-- `moveGhostBlockToGround(state, ghostBlock)` (source lines 327-340), with
the same fuel discipline as `moveHardDown`. -/
def moveGhostBlockToGround : Nat → State → FallingBlock → Option FallingBlock
  | 0, _, _ => none
  | fuel + 1, state, ghostBlock =>
    if canMoveDown { state with fallingBlock := ghostBlock } then
      moveGhostBlockToGround fuel { state with fallingBlock := ghostBlock }
        (moveBlockDown { state with fallingBlock := ghostBlock }).fallingBlock
    else some ghostBlock

/-- `getGhostBlockPosition(state)` (source lines 343-348): run the descent on
a copy of the falling block, never touching the state. -/
def getGhostBlockPosition (fuel : Nat) (state : State) : Option FallingBlock :=
  moveGhostBlockToGround fuel state state.fallingBlock

/-! ## Initial state and restart (src/types.ts:160-194, src/utility.ts:388-429) -/

/-- `emptyGrid`: `GRID_HEIGHT` rows of `GRID_WIDTH` unplaced cells. -/
def emptyGrid : List (List BlockCell) :=
  List.replicate Constants.GRID_HEIGHT
    (List.replicate Constants.GRID_WIDTH { placed := false, colour := "" })

/-- The first start-up draw, `drawFromBag(159, shuffleBag(159))`. -/
def initialDraw1 : DrawResult := drawFromBag 159 (shuffleBag 159)

/-- The second start-up draw, continuing seed and bag from the first. -/
def initialDraw2 : DrawResult := drawFromBag initialDraw1.newSeed initialDraw1.newBag

/-- `initialState` (src/types.ts:182-194).  Note the source seeds
`currentBag` with `shuffleBag(seed2)`, not with the leftover `bag2`. -/
def initialState : State :=
  { gameEnd := false
    fallingBlock := initialDraw1.drawnBlock
    placedBlocks := emptyGrid
    level := 1
    linesCleared := 0
    score := 0
    highScore := 0
    nextBlock := initialDraw2.drawnBlock
    heldBlock := none
    blockHeldDuringFall := false
    currentSeed := initialDraw2.newSeed
    currentBag := shuffleBag initialDraw2.newSeed }

/-- `restartGame(s)`: a no-op while the game is running; once ended, rebuild
the initial state except that the high score carries forward and the
falling/next pair is drawn by two `drawFromBag` calls continuing the
previous seed/bag chain.  The DOM cleanup of the held-block preview and the
`level$.next(1)` push are rendering-side effects outside the state model. -/
def restartGame (s : State) : State :=
  if s.gameEnd then
    let d1 := drawFromBag s.currentSeed s.currentBag
    let d2 := drawFromBag d1.newSeed d1.newBag
    { initialState with
      highScore := max s.score s.highScore
      fallingBlock := d1.drawnBlock
      nextBlock := d2.drawnBlock
      blockHeldDuringFall := false
      heldBlock := none
      currentSeed := d2.newSeed
      currentBag := d2.newBag }
  else s

/-! ## Spec-side definitions and concrete instances used by the claims -/

/-- Spec wording for C2: the falling block with every cell shifted
horizontally by `offsetX`. -/
def shiftBlockX (offsetX : Int) (b : FallingBlock) : FallingBlock :=
  { b with cells := b.cells.map fun cell => ⟨cell.x + offsetX, cell.y⟩ }

/-- The horizontal offset of a lateral move, one cell width to the left or
right. -/
def dirOffset (direction : Direction) : Int :=
  if direction = .left then -Block.WIDTH else Block.WIDTH

/-- Spec wording for C6: a grid row is full when every cell is placed (the
source counts the placed cells and compares with the row length). -/
def rowFull (row : List BlockCell) : Bool :=
  (row.filter BlockCell.placed).length == row.length

/-- A game state whose falling block has dropped below the board (cells at
y = 400, 420): `canMove` never looks at y, `isValidPosition` does. -/
def belowBoardState : State :=
  { gameEnd := false
    fallingBlock :=
      { cells := [⟨40, 400⟩, ⟨60, 400⟩, ⟨40, 420⟩, ⟨60, 420⟩]
        colour := "#FFFF00", type := .SQUARE }
    placedBlocks := emptyGrid
    level := 1, linesCleared := 0, score := 0, highScore := 0
    nextBlock := squareBlock
    heldBlock := none, blockHeldDuringFall := false
    currentSeed := 0, currentBag := blockTypesList }

/-- A game state whose falling block is tagged `SQUARE` but whose cells form
a horizontal line: the rotation guard tests the geometry, not the kind. -/
def mislabelledSquareState : State :=
  { gameEnd := false
    fallingBlock :=
      { cells := [⟨80, 40⟩, ⟨100, 40⟩, ⟨120, 40⟩, ⟨60, 40⟩]
        colour := "#FFFF00", type := .SQUARE }
    placedBlocks := emptyGrid
    level := 1, linesCleared := 0, score := 0, highScore := 0
    nextBlock := squareBlock
    heldBlock := none, blockHeldDuringFall := false
    currentSeed := 0, currentBag := blockTypesList }

/-- A plain running state holding a square block, used to instantiate the
universally quantified theorems at a concrete input. -/
def sampleState : State :=
  { gameEnd := false
    fallingBlock := squareBlock
    placedBlocks := emptyGrid
    level := 1, linesCleared := 0, score := 0, highScore := 0
    nextBlock := lineBlock
    heldBlock := none, blockHeldDuringFall := false
    currentSeed := 0, currentBag := blockTypesList }

/-! ## Arithmetic facts about the RNG -/

theorem RNG.hash_lt (seed : Nat) : RNG.hash seed < RNG.m :=
  Nat.mod_lt _ (by norm_num [RNG.m])

theorem RNG.hash_le (seed : Nat) : RNG.hash seed ≤ RNG.m - 1 :=
  Nat.le_sub_one_of_lt (RNG.hash_lt seed)

/-- `Math.floor(scale(h) * len)` is exact natural division of `h * len` by
`m - 1`. -/
theorem drawIndex_eq_div (seed len : Nat) :
    drawIndex seed len = RNG.hash seed * len / (RNG.m - 1) := by
  unfold drawIndex RNG.scale
  rw [div_mul_eq_mul_div]
  have h1 : (RNG.hash seed : ℚ) * (len : ℚ) = ((RNG.hash seed * len : Nat) : ℚ) := by
    push_cast; ring
  have h2 : ((RNG.m : ℚ) - 1) = ((RNG.m - 1 : Nat) : ℚ) := by
    norm_num [RNG.m]
  rw [h1, h2, Int.floor_toNat, Nat.floor_div_eq_div]

theorem scale_nonneg (h : Nat) : 0 ≤ RNG.scale h := by
  unfold RNG.scale
  apply div_nonneg (Nat.cast_nonneg h)
  norm_num [RNG.m]

theorem scale_le_one {h : Nat} (hh : h ≤ RNG.m - 1) : RNG.scale h ≤ 1 := by
  unfold RNG.scale
  rw [div_le_one (by norm_num [RNG.m])]
  have : (h : ℚ) ≤ ((RNG.m - 1 : Nat) : ℚ) := by exact_mod_cast hh
  calc (h : ℚ) ≤ ((RNG.m - 1 : Nat) : ℚ) := this
    _ = (RNG.m : ℚ) - 1 := by norm_num [RNG.m]

theorem scale_lt_one {h : Nat} (hh : h < RNG.m - 1) : RNG.scale h < 1 := by
  unfold RNG.scale
  rw [div_lt_one (by norm_num [RNG.m])]
  have : (h : ℚ) < ((RNG.m - 1 : Nat) : ℚ) := by exact_mod_cast hh
  calc (h : ℚ) < ((RNG.m - 1 : Nat) : ℚ) := this
    _ = (RNG.m : ℚ) - 1 := by norm_num [RNG.m]

/-- The drawn index stays strictly inside the bag whenever the hash misses
the single bad value `m - 1`. -/
theorem drawIndex_lt {seed len : Nat} (hh : RNG.hash seed ≠ RNG.m - 1) (hlen : 0 < len) :
    drawIndex seed len < len := by
  rw [drawIndex_eq_div]
  have hm : 0 < RNG.m - 1 := by norm_num [RNG.m]
  rw [Nat.div_lt_iff_lt_mul hm]
  have : RNG.hash seed < RNG.m - 1 := lt_of_le_of_ne (RNG.hash_le seed) hh
  calc RNG.hash seed * len < (RNG.m - 1) * len :=
        Nat.mul_lt_mul_of_lt_of_le this (le_refl len) hlen
    _ = len * (RNG.m - 1) := Nat.mul_comm _ _

/-! ## The hash never returns `m - 1`

`scale` divides by `m - 1`, so a draw or swap index could only leave its
array if some hash returned `m - 1` exactly.  In exact arithmetic the seed
181070632 would do so, but the source computes in doubles: below `2^53` the
hash is exact and 181070632 is the only 31-bit preimage of `m - 1` — itself
far outside the exact range — while from `2^53` on every rounded result is
even and `m - 1` is odd.  So no 31-bit seed (the spec's seed data model,
and the range of `hash` itself) ever produces `m - 1`. -/

theorem fl53_of_lt {n : Nat} (h : n < 2 ^ 53) : fl53 n = n := by
  unfold fl53
  rw [if_pos h]

/-- At or above `2^53` every rounding candidate is a multiple of the unit in
the last place, which is even. -/
theorem two_dvd_fl53 {n : Nat} (h : 2 ^ 53 ≤ n) : 2 ∣ fl53 n := by
  unfold fl53
  rw [if_neg (Nat.not_lt.mpr h)]
  have hn0 : n ≠ 0 := (lt_of_lt_of_le (by norm_num) h).ne'
  have h53 : 53 ≤ Nat.log2 n := (Nat.le_log2 hn0).mpr h
  have hg : 2 ∣ 2 ^ (Nat.log2 n - 52) := dvd_pow_self 2 (by omega)
  split_ifs <;> exact hg.mul_left _

/-- Rounding never pulls a value from `2^53` or above back below `2^53`. -/
theorem le_fl53 {n : Nat} (h : 2 ^ 53 ≤ n) : 2 ^ 53 ≤ fl53 n := by
  unfold fl53
  rw [if_neg (Nat.not_lt.mpr h)]
  have hn0 : n ≠ 0 := (lt_of_lt_of_le (by norm_num) h).ne'
  have h53 : 53 ≤ Nat.log2 n := (Nat.le_log2 hn0).mpr h
  have hpow : 2 ^ Nat.log2 n ≤ n := (Nat.le_log2 hn0).mp (le_refl _)
  have hgpos : 0 < 2 ^ (Nat.log2 n - 52) := pow_pos (by norm_num) _
  have hsplit : 2 ^ 52 * 2 ^ (Nat.log2 n - 52) = 2 ^ Nat.log2 n := by
    rw [← pow_add]
    congr 1
    omega
  have hq : 2 ^ 52 ≤ n / 2 ^ (Nat.log2 n - 52) := by
    rw [Nat.le_div_iff_mul_le hgpos, hsplit]
    exact hpow
  have hbase : 2 ^ 53 ≤ n / 2 ^ (Nat.log2 n - 52) * 2 ^ (Nat.log2 n - 52) := by
    calc 2 ^ 53 ≤ 2 ^ Nat.log2 n := Nat.pow_le_pow_right (by norm_num) h53
      _ = 2 ^ 52 * 2 ^ (Nat.log2 n - 52) := hsplit.symm
      _ ≤ n / 2 ^ (Nat.log2 n - 52) * 2 ^ (Nat.log2 n - 52) :=
          Nat.mul_le_mul_right _ hq
  have hnext : 2 ^ 53 ≤ (n / 2 ^ (Nat.log2 n - 52) + 1) * 2 ^ (Nat.log2 n - 52) :=
    le_trans hbase (Nat.mul_le_mul_right _ (Nat.le_succ _))
  split_ifs <;> assumption

/-- No 31-bit seed hashes to `m - 1`. -/
theorem RNG.hash_ne_max {seed : Nat} (hs : seed < RNG.m) :
    RNG.hash seed ≠ RNG.m - 1 := by
  by_cases hA : RNG.a * seed + RNG.c < 2 ^ 53
  · have h1 : RNG.a * seed < 2 ^ 53 := lt_of_le_of_lt (Nat.le_add_right _ _) hA
    have hexact : RNG.hash seed = (RNG.a * seed + RNG.c) % RNG.m := by
      unfold RNG.hash
      rw [fl53_of_lt h1, fl53_of_lt hA]
    rw [hexact]
    intro hcontra
    have hmod : RNG.a * seed + RNG.c ≡ RNG.a * 181070632 + RNG.c [MOD RNG.m] := by
      unfold Nat.ModEq
      rw [hcontra]
      decide
    have hmul : RNG.a * seed ≡ RNG.a * 181070632 [MOD RNG.m] :=
      Nat.ModEq.add_right_cancel' RNG.c hmod
    have hodd : Odd RNG.a := Nat.odd_iff.mpr (by decide)
    have hcop : Nat.Coprime RNG.m RNG.a := by
      have hb : Nat.Coprime 2 RNG.a := Nat.coprime_two_left.mpr hodd
      have hm : RNG.m = 2 ^ 31 := by decide
      rw [hm]
      exact (@Nat.coprime_pow_left_iff 31 (by norm_num) 2 RNG.a).mpr hb
    have hseed : seed ≡ 181070632 [MOD RNG.m] :=
      Nat.ModEq.cancel_left_of_coprime hcop hmul
    have heq : seed = 181070632 := by
      have h2 : seed % RNG.m = 181070632 % RNG.m := hseed
      rwa [Nat.mod_eq_of_lt hs, Nat.mod_eq_of_lt (by decide)] at h2
    rw [heq] at hA
    exact absurd hA (by decide)
  · have hB : 2 ^ 53 ≤ RNG.a * seed + RNG.c := Nat.not_lt.mp hA
    have hge : 2 ^ 53 ≤ fl53 (RNG.a * seed) + RNG.c := by
      by_cases hp : RNG.a * seed < 2 ^ 53
      · rw [fl53_of_lt hp]
        exact hB
      · have := le_fl53 (Nat.not_lt.mp hp)
        omega
    have heven : 2 ∣ fl53 (fl53 (RNG.a * seed) + RNG.c) := two_dvd_fl53 hge
    intro hcontra
    have h2m : (2 : Nat) ∣ RNG.m := by decide
    have h2top : (2 : Nat) ∣ RNG.m - 1 := by
      rw [← hcontra]
      exact (Nat.dvd_mod_iff h2m).mpr heven
    exact absurd h2top (by decide)

/-- The effective seed of a draw is still a 31-bit value. -/
theorem effSeed_lt {seed : Nat} (bag : List BlockType) (hs : seed < RNG.m) :
    effSeed seed bag < RNG.m := by
  unfold effSeed
  by_cases h : bag.length = 0
  · rw [if_pos h]
    exact RNG.hash_lt seed
  · rw [if_neg h]
    exact hs

/-- Every iterate of the hash stays below `m`. -/
theorem RNG.hash_iter_lt (k : Nat) :
    ∀ {seed : Nat}, seed < RNG.m → RNG.hash^[k] seed < RNG.m := by
  induction k with
  | zero =>
    intro seed hs
    simpa using hs
  | succ k ih =>
    intro seed hs
    rw [Function.iterate_succ_apply]
    exact ih (RNG.hash_lt seed)

/-! ## The shuffle permutes the bag -/

theorem getD_of_lt (l : List BlockType) (i : Nat) (d : BlockType) (h : i < l.length) :
    l.getD i d = l[i] := by
  simp [List.getD_eq_getElem?_getD, List.getElem?_eq_getElem h]

/-- The `acc.map` swap of `shuffleBag` written with `List.set`: position
`remaining - 1` takes the old `acc[randomIndex]`, position `randomIndex`
takes the old `acc[remaining - 1]`. -/
theorem shuffleSwap_eq_set (acc : List BlockType) (remaining randomIndex : Nat) :
    shuffleSwap acc remaining randomIndex =
      (acc.set (remaining - 1) (acc.getD randomIndex .SQUARE)).set randomIndex
        (acc.getD (remaining - 1) .SQUARE) := by
  apply List.ext_getElem
  · simp [shuffleSwap]
  · intro i h1 h2
    simp only [shuffleSwap, List.getElem_map, List.getElem_enum, List.getElem_set]
    by_cases e1 : i = remaining - 1
    · by_cases e2 : remaining - 1 = randomIndex
      · subst e1
        simp [← e2]
      · subst e1
        simp [Ne.symm e2]
    · by_cases e2 : i = randomIndex
      · subst e2
        simp [e1, Ne.symm e1]
      · simp [e1, e2, Ne.symm e1, Ne.symm e2]

/-- A swap step whose random index is in range permutes the accumulator. -/
theorem shuffleSwap_perm (acc : List BlockType) (remaining randomIndex : Nat)
    (hr : remaining ≤ acc.length) (h0 : 0 < remaining) (hj : randomIndex < remaining) :
    (shuffleSwap acc remaining randomIndex).Perm acc := by
  have hj' : randomIndex < acc.length := lt_of_lt_of_le hj hr
  have hr' : remaining - 1 < acc.length := lt_of_lt_of_le (Nat.sub_lt h0 one_pos) hr
  rw [List.perm_iff_count]
  intro x
  rw [shuffleSwap_eq_set, getD_of_lt _ _ _ hj', getD_of_lt _ _ _ hr']
  have hlen : randomIndex < (acc.set (remaining - 1) acc[randomIndex]).length := by
    simpa using hj'
  rw [List.count_set _ _ _ _ hlen, List.count_set _ _ _ _ hr']
  have hmid : (acc.set (remaining - 1) acc[randomIndex])[randomIndex] = acc[randomIndex] := by
    rw [List.getElem_set]
    by_cases e : remaining - 1 = randomIndex
    · simp [e]
    · simp [e]
  rw [hmid]
  have c1 : (if acc[remaining - 1] == x then 1 else 0) ≤ acc.count x := by
    by_cases e : acc[remaining - 1] = x
    · have hx : x ∈ acc := e ▸ acc.getElem_mem hr'
      simpa [e] using List.count_pos_iff.mpr hx
    · simp [e]
  have c2 : (if acc[randomIndex] == x then 1 else 0) ≤ acc.count x := by
    by_cases e : acc[randomIndex] = x
    · have hx : x ∈ acc := e ▸ acc.getElem_mem hj'
      simpa [e] using List.count_pos_iff.mpr hx
    · simp [e]
  omega

/-- The whole shuffle fold permutes its accumulator provided every step's
hash misses `m - 1` (so every random index is in range). -/
theorem shuffleFold_perm (idxs : List Nat) :
    ∀ (acc : List BlockType) (seed : Nat),
      (∀ k, k < idxs.length → RNG.hash (RNG.hash^[k] seed) ≠ RNG.m - 1) →
      (∀ i ∈ idxs, i < acc.length) →
      ((idxs.foldl shuffleStep (acc, seed)).1).Perm acc := by
  induction idxs with
  | nil => intro acc seed _ _; simp
  | cons i idxs ih =>
    intro acc seed hhash hmem
    have hi : i < acc.length := hmem i (List.mem_cons_self i idxs)
    have h0 : 0 < acc.length - i := Nat.sub_pos_of_lt hi
    have hh0 : RNG.hash seed ≠ RNG.m - 1 := by
      simpa using hhash 0 (by simp)
    have hidx : drawIndex seed (acc.length - i) < acc.length - i := drawIndex_lt hh0 h0
    have perm1 : (shuffleSwap acc (acc.length - i) (drawIndex seed (acc.length - i))).Perm acc :=
      shuffleSwap_perm acc _ _ (Nat.sub_le _ _) h0 hidx
    have step : shuffleStep (acc, seed) i =
        (shuffleSwap acc (acc.length - i) (drawIndex seed (acc.length - i)), RNG.hash seed) := rfl
    rw [List.foldl_cons, step]
    have perm2 := ih (shuffleSwap acc (acc.length - i) (drawIndex seed (acc.length - i)))
      (RNG.hash seed)
      (by
        intro k hk
        have := hhash (k + 1) (by simpa using Nat.succ_lt_succ hk)
        simpa [Function.iterate_succ_apply] using this)
      (by
        intro j hj
        rw [perm1.length_eq]
        exact hmem j (List.mem_cons_of_mem i hj))
    exact perm2.trans perm1

/-- The shuffle fold never changes the length of the accumulator. -/
theorem shuffleFold_length (idxs : List Nat) :
    ∀ (acc : List BlockType) (seed : Nat),
      ((idxs.foldl shuffleStep (acc, seed)).1).length = acc.length := by
  induction idxs with
  | nil => intro acc seed; rfl
  | cons i idxs ih =>
    intro acc seed
    rw [List.foldl_cons]
    have hswap : (shuffleSwap acc (acc.length - i) (drawIndex seed (acc.length - i))).length
        = acc.length := by
      simp [shuffleSwap]
    calc ((idxs.foldl shuffleStep
            (shuffleSwap acc (acc.length - i) (drawIndex seed (acc.length - i)),
             RNG.hash seed)).1).length
        = (shuffleSwap acc (acc.length - i) (drawIndex seed (acc.length - i))).length := ih _ _
      _ = acc.length := hswap

/-- Shuffled bags always hold seven entries. -/
theorem shuffleBag_length (seed : Nat) : (shuffleBag seed).length = 7 :=
  shuffleFold_length _ blockTypesList seed

/-- Every constructor stamps its own kind on the block it builds. -/
theorem createFallingBlock_type (t : BlockType) : (createFallingBlock t).type = t := by
  cases t <;> rfl

theorem effBag_length_pos (seed : Nat) (bag : List BlockType) :
    0 < (effBag seed bag).length := by
  unfold effBag
  by_cases h : bag.length = 0
  · simp [h, shuffleBag_length]
  · simp [h, Nat.pos_of_ne_zero h]

/-- For every 31-bit seed the shuffle permutes the seven kinds:
`RNG.hash_ne_max` keeps every swap index along the seed chain in range. -/
theorem shuffleBag_perm_of_lt {seed : Nat} (hs : seed < RNG.m) :
    (shuffleBag seed).Perm blockTypesList := by
  apply shuffleFold_perm
  · intro k hk
    exact RNG.hash_ne_max (RNG.hash_iter_lt k hs)
  · intro i hi
    exact List.mem_range.mp hi

/-- C1: for every 31-bit seed (the spec's seed data model, and the range of
`hash` itself) and every bag, `scale(hash(seed))` lies in `[0, 1)`, the
index computed inside `drawFromBag` — on the effective seed and bag after a
possible reshuffle of an empty bag — is strictly below the bag's length,
and the drawn block's kind is an element of that bag: the draw never reads
out of the bag's bounds. -/
theorem C1_scale_and_draw_in_bounds (seed : Nat) (bag : List BlockType)
    (hs : seed < RNG.m) :
    0 ≤ RNG.scale (RNG.hash seed) ∧
    RNG.scale (RNG.hash seed) < 1 ∧
    drawIndex (effSeed seed bag) (effBag seed bag).length < (effBag seed bag).length ∧
    (drawFromBag seed bag).drawnBlock.type ∈ effBag seed bag := by
  have hh : RNG.hash (effSeed seed bag) ≠ RNG.m - 1 := RNG.hash_ne_max (effSeed_lt bag hs)
  have hlt : RNG.hash seed < RNG.m - 1 :=
    lt_of_le_of_ne (RNG.hash_le _) (RNG.hash_ne_max hs)
  have hpos := effBag_length_pos seed bag
  have hidx := drawIndex_lt hh hpos
  refine ⟨scale_nonneg _, scale_lt_one hlt, hidx, ?_⟩
  show (createFallingBlock ((effBag seed bag).getD
      (drawIndex (effSeed seed bag) (effBag seed bag).length) .SQUARE)).type ∈ effBag seed bag
  rw [createFallingBlock_type, getD_of_lt _ _ _ hidx]
  exact (effBag seed bag).getElem_mem hidx

/-- C1 witness: the bounds hold concretely at seed 0 with the full bag. -/
theorem C1_scale_and_draw_in_bounds_witness :
    (0 : Nat) < RNG.m ∧
    (0 ≤ RNG.scale (RNG.hash 0) ∧
     RNG.scale (RNG.hash 0) < 1 ∧
     drawIndex (effSeed 0 blockTypesList) (effBag 0 blockTypesList).length <
       (effBag 0 blockTypesList).length ∧
     (drawFromBag 0 blockTypesList).drawnBlock.type ∈ effBag 0 blockTypesList) :=
  ⟨by decide, C1_scale_and_draw_in_bounds 0 blockTypesList (by decide)⟩

/-- C3: for every 31-bit seed, `shuffleBag seed` has length 7, is a
permutation of the seven kinds, and contains each kind exactly once: the
double-rounded hash never returns `m - 1`, so every swap index is in
range. -/
theorem C3_shuffleBag_permutation (seed : Nat) (hs : seed < RNG.m) :
    (shuffleBag seed).length = 7 ∧
    (shuffleBag seed).Perm blockTypesList ∧
    ∀ t, (shuffleBag seed).count t = 1 := by
  have hp := shuffleBag_perm_of_lt hs
  refine ⟨shuffleBag_length seed, hp, ?_⟩
  intro t
  rw [hp.count_eq]
  cases t <;> rfl

/-- C3 witness: the start-up seed 159 shuffles to a permutation of the seven
kinds, each exactly once. -/
theorem C3_shuffleBag_permutation_witness :
    159 < RNG.m ∧
    ((shuffleBag 159).length = 7 ∧
     (shuffleBag 159).Perm blockTypesList ∧
     ∀ t, (shuffleBag 159).count t = 1) :=
  ⟨by decide, C3_shuffleBag_permutation 159 (by decide)⟩

/-- C4: for every 31-bit seed and every bag of distinct kinds, `drawFromBag`
returns exactly the element at the computed index, removes exactly that one
position (the new bag is `take index ++ drop (index + 1)`: order preserved,
length one less), the drawn kind is gone from the new bag and the new bag
is still distinct (so drawing to exhaustion repeats no kind within the
epoch), the returned seed is the hash of the effective seed, and a call on
an empty bag first replaces the bag with `shuffleBag seed` and advances the
seed once via `hash` before drawing. -/
theorem C4_draw_stable_removal (seed : Nat) (bag : List BlockType)
    (hs : seed < RNG.m) (hnd : bag.Nodup) :
    (drawFromBag seed bag).newBag =
      (effBag seed bag).take (drawIndex (effSeed seed bag) (effBag seed bag).length) ++
      (effBag seed bag).drop (drawIndex (effSeed seed bag) (effBag seed bag).length + 1) ∧
    (drawFromBag seed bag).drawnBlock.type =
      (effBag seed bag).getD (drawIndex (effSeed seed bag) (effBag seed bag).length) .SQUARE ∧
    (drawFromBag seed bag).newBag.length = (effBag seed bag).length - 1 ∧
    (drawFromBag seed bag).drawnBlock.type ∉ (drawFromBag seed bag).newBag ∧
    (drawFromBag seed bag).newBag.Nodup ∧
    (drawFromBag seed bag).newSeed = RNG.hash (effSeed seed bag) ∧
    (bag = [] → effBag seed bag = shuffleBag seed ∧ effSeed seed bag = RNG.hash seed) := by
  have hidx : drawIndex (effSeed seed bag) (effBag seed bag).length <
      (effBag seed bag).length :=
    drawIndex_lt (RNG.hash_ne_max (effSeed_lt bag hs)) (effBag_length_pos seed bag)
  have hndEff : (effBag seed bag).Nodup := by
    unfold effBag
    by_cases h : bag.length = 0
    · rw [if_pos h]
      exact ((shuffleBag_perm_of_lt hs).nodup_iff).mpr (by decide)
    · rw [if_neg h]
      exact hnd
  have hbag : (drawFromBag seed bag).newBag =
      (effBag seed bag).eraseIdx (drawIndex (effSeed seed bag) (effBag seed bag).length) := by
    rw [List.eraseIdx_eq_take_drop_succ]
    rfl
  have htype : (drawFromBag seed bag).drawnBlock.type =
      (effBag seed bag).getD (drawIndex (effSeed seed bag) (effBag seed bag).length) .SQUARE :=
    createFallingBlock_type _
  refine ⟨rfl, htype, ?_, ?_, ?_, rfl, ?_⟩
  · rw [hbag]
    exact List.length_eraseIdx_of_lt hidx
  · rw [hbag, htype, getD_of_lt _ _ _ hidx]
    intro hmem
    obtain ⟨j, hj, hne, hje⟩ := List.mem_eraseIdx_iff_getElem.mp hmem
    exact hne ((List.Nodup.getElem_inj_iff hndEff).mp hje)
  · rw [hbag]
    exact hndEff.eraseIdx _
  · intro h
    constructor
    · unfold effBag
      simp [h]
    · unfold effSeed
      simp [h]

/-- C4 witness: a concrete draw at seed 0 from the full distinct bag. -/
theorem C4_draw_stable_removal_witness :
    ((0 : Nat) < RNG.m ∧ blockTypesList.Nodup) ∧
    ((drawFromBag 0 blockTypesList).newBag =
      (effBag 0 blockTypesList).take
        (drawIndex (effSeed 0 blockTypesList) (effBag 0 blockTypesList).length) ++
      (effBag 0 blockTypesList).drop
        (drawIndex (effSeed 0 blockTypesList) (effBag 0 blockTypesList).length + 1) ∧
     (drawFromBag 0 blockTypesList).drawnBlock.type =
      (effBag 0 blockTypesList).getD
        (drawIndex (effSeed 0 blockTypesList) (effBag 0 blockTypesList).length) .SQUARE ∧
     (drawFromBag 0 blockTypesList).newBag.length = (effBag 0 blockTypesList).length - 1 ∧
     (drawFromBag 0 blockTypesList).drawnBlock.type ∉ (drawFromBag 0 blockTypesList).newBag ∧
     (drawFromBag 0 blockTypesList).newBag.Nodup ∧
     (drawFromBag 0 blockTypesList).newSeed = RNG.hash (effSeed 0 blockTypesList) ∧
     (blockTypesList = [] → effBag 0 blockTypesList = shuffleBag 0 ∧
        effSeed 0 blockTypesList = RNG.hash 0)) :=
  ⟨⟨by decide, by decide⟩,
   C4_draw_stable_removal 0 blockTypesList (by decide) (by decide)⟩

/-- `canMove` agrees with `isValidPosition` on the laterally shifted block as
long as every cell of the falling block lies vertically on the board (the
only check `isValidPosition` performs that `canMove` skips). -/
theorem canMove_eq_isValidPosition (direction : Direction) (s : State)
    (hy : ∀ cell ∈ s.fallingBlock.cells, 0 ≤ cell.y ∧ cell.y < Viewport.CANVAS_HEIGHT) :
    canMove direction s =
      isValidPosition (shiftBlockX (dirOffset direction) s.fallingBlock) s.placedBlocks := by
  unfold canMove isValidPosition shiftBlockX dirOffset
  simp only [List.filter_map, List.length_map]
  have hfil : ∀ cells, (∀ cell ∈ cells, 0 ≤ cell.y ∧ cell.y < Viewport.CANVAS_HEIGHT) →
      List.filter (fun cell =>
        let newX := cell.x + if direction = .left then -Block.WIDTH else Block.WIDTH
        if newX < 0 ∨ Viewport.CANVAS_WIDTH ≤ newX then true
        else cellPlaced s.placedBlocks (Int.fdiv cell.y Block.HEIGHT)
               (Int.fdiv newX Block.WIDTH)) cells =
      List.filter ((fun cell =>
        if cell.x < 0 ∨ Viewport.CANVAS_WIDTH ≤ cell.x then true
        else if cell.y < 0 ∨ Viewport.CANVAS_HEIGHT ≤ cell.y then true
        else cellPlaced s.placedBlocks (Int.fdiv cell.y Block.HEIGHT)
               (Int.fdiv cell.x Block.WIDTH)) ∘ (fun cell : Cell =>
        (⟨cell.x + if direction = .left then -Block.WIDTH else Block.WIDTH, cell.y⟩ : Cell)))
        cells := by
    intro cells hcells
    apply List.filter_congr
    intro cell hcell
    have hcy := hcells cell hcell
    have hno : ¬ (cell.y < 0 ∨ Viewport.CANVAS_HEIGHT ≤ cell.y) := by
      push_neg
      exact ⟨hcy.1, hcy.2⟩
    simp only [Function.comp]
    simp [hno]
  rw [hfil s.fallingBlock.cells hy]

/-- C2 (amended): for every state whose falling block lies vertically on the
board (`0 ≤ y < CANVAS_HEIGHT` for each cell — true of every block the game
ever exposes, and the only condition `isValidPosition` checks that
`canMove` does not), the lateral legality check equals `isValidPosition` on
the shifted block, and `moveLeft`/`moveRight` replace the falling block
with the shifted block exactly when `isValidPosition` accepts it, leaving
the state unchanged otherwise. -/
theorem C2_lateral_move_refines_isValidPosition (s : State)
    (hy : ∀ cell ∈ s.fallingBlock.cells, 0 ≤ cell.y ∧ cell.y < Viewport.CANVAS_HEIGHT) :
    canMove .left s =
      isValidPosition (shiftBlockX (-Block.WIDTH) s.fallingBlock) s.placedBlocks ∧
    canMove .right s =
      isValidPosition (shiftBlockX Block.WIDTH s.fallingBlock) s.placedBlocks ∧
    moveLeft s =
      (if isValidPosition (shiftBlockX (-Block.WIDTH) s.fallingBlock) s.placedBlocks then
        { s with fallingBlock := shiftBlockX (-Block.WIDTH) s.fallingBlock } else s) ∧
    moveRight s =
      (if isValidPosition (shiftBlockX Block.WIDTH s.fallingBlock) s.placedBlocks then
        { s with fallingBlock := shiftBlockX Block.WIDTH s.fallingBlock } else s) := by
  have hleft := canMove_eq_isValidPosition .left s hy
  have hright := canMove_eq_isValidPosition .right s hy
  have hdl : dirOffset .left = -Block.WIDTH := rfl
  have hdr : dirOffset .right = Block.WIDTH := rfl
  rw [hdl] at hleft
  rw [hdr] at hright
  refine ⟨hleft, hright, ?_, ?_⟩
  · show move .left s = _
    unfold move
    rw [hleft]
    rfl
  · show move .right s = _
    unfold move
    rw [hright]
    rfl

/-- C2 witness: the equivalence instantiated at a concrete on-board state. -/
theorem C2_lateral_move_refines_isValidPosition_witness :
    (∀ cell ∈ sampleState.fallingBlock.cells, 0 ≤ cell.y ∧ cell.y < Viewport.CANVAS_HEIGHT) ∧
    (canMove .left sampleState =
       isValidPosition (shiftBlockX (-Block.WIDTH) sampleState.fallingBlock)
         sampleState.placedBlocks ∧
     canMove .right sampleState =
       isValidPosition (shiftBlockX Block.WIDTH sampleState.fallingBlock)
         sampleState.placedBlocks ∧
     moveLeft sampleState =
       (if isValidPosition (shiftBlockX (-Block.WIDTH) sampleState.fallingBlock)
           sampleState.placedBlocks then
         { sampleState with
             fallingBlock := shiftBlockX (-Block.WIDTH) sampleState.fallingBlock }
        else sampleState) ∧
     moveRight sampleState =
       (if isValidPosition (shiftBlockX Block.WIDTH sampleState.fallingBlock)
           sampleState.placedBlocks then
         { sampleState with
             fallingBlock := shiftBlockX Block.WIDTH sampleState.fallingBlock }
        else sampleState)) :=
  ⟨by decide, C2_lateral_move_refines_isValidPosition sampleState (by decide)⟩

/-- C2 counterexample: on a state whose block has fallen off the bottom of
the board, `canMove` still answers true while `isValidPosition` rejects the
shifted block, and `moveLeft` shifts the block even though
`isValidPosition` rejects it: without the on-board hypothesis the claimed
equivalence is false. -/
theorem C2_counterexample :
    canMove .left belowBoardState = true ∧
    isValidPosition (shiftBlockX (-Block.WIDTH) belowBoardState.fallingBlock)
      belowBoardState.placedBlocks = false ∧
    moveLeft belowBoardState ≠ belowBoardState := by
  refine ⟨by decide, by decide, by decide⟩

/-- The ghost descent reads its state argument only through the record that
already carries the ghost block in the falling slot. -/
theorem moveGhostBlockToGround_congr (fuel : Nat) (s₁ s₂ : State) (g : FallingBlock)
    (h : { s₁ with fallingBlock := g } = { s₂ with fallingBlock := g }) :
    moveGhostBlockToGround fuel s₁ g = moveGhostBlockToGround fuel s₂ g := by
  cases fuel with
  | zero => rfl
  | succ fuel =>
    show (if canMoveDown { s₁ with fallingBlock := g } then
        moveGhostBlockToGround fuel { s₁ with fallingBlock := g }
          (moveBlockDown { s₁ with fallingBlock := g }).fallingBlock
      else some g) = _
    rw [h]
    rfl

/-- C5: hard drop equals the ghost projection followed by locking — for every
fuel bound and every state, `moveHardDown` returns (exactly when the ghost
descent returns) the state locked with its falling block replaced by the
ghost position; the ghost computation itself touches no state. -/
theorem C5_hard_drop_locks_at_ghost_position (fuel : Nat) :
    ∀ s : State,
      moveHardDown fuel s = (getGhostBlockPosition fuel s).map
        (fun g => handleBlockLocking { s with fallingBlock := g }) := by
  induction fuel with
  | zero => intro s; rfl
  | succ fuel ih =>
    intro s
    show (if canMoveDown s then moveHardDown fuel (moveBlockDown s)
        else some (handleBlockLocking s)) = _
    unfold getGhostBlockPosition
    show _ = (if canMoveDown { s with fallingBlock := s.fallingBlock } then
        moveGhostBlockToGround fuel { s with fallingBlock := s.fallingBlock }
          (moveBlockDown { s with fallingBlock := s.fallingBlock }).fallingBlock
      else some s.fallingBlock).map
        (fun g => handleBlockLocking { s with fallingBlock := g })
    have heta : { s with fallingBlock := s.fallingBlock } = s := rfl
    rw [heta]
    by_cases hc : canMoveDown s
    · rw [if_pos hc, if_pos hc]
      have hcongr : moveGhostBlockToGround fuel s (moveBlockDown s).fallingBlock =
          moveGhostBlockToGround fuel (moveBlockDown s) (moveBlockDown s).fallingBlock :=
        moveGhostBlockToGround_congr fuel s (moveBlockDown s) _ rfl
      rw [hcongr]
      have := ih (moveBlockDown s)
      unfold getGhostBlockPosition at this
      rw [this]
      rfl
    · rw [if_neg hc, if_neg hc]
      rfl

/-- C6: the line-clear step removes exactly the fully placed rows (every
non-full row survives, in order), prepends that many fresh empty rows of
`GRID_WIDTH` unplaced cells at the top, and pays 100 points per cleared
row. -/
theorem C6_clearFullRows_clears_full_rows (s : State) :
    (clearFullRows s).placedBlocks =
      List.replicate ((s.placedBlocks.filter rowFull).length)
        (List.replicate Constants.GRID_WIDTH { placed := false, colour := "" }) ++
      s.placedBlocks.filter (fun row => !(rowFull row)) ∧
    (clearFullRows s).score = s.score + (s.placedBlocks.filter rowFull).length * 100 := by
  have hsplit : s.placedBlocks.length -
      (s.placedBlocks.filter (fun row => !(rowFull row))).length =
      (s.placedBlocks.filter rowFull).length := by
    have h1 := List.length_eq_countP_add_countP (p := rowFull) (l := s.placedBlocks)
    have h2 : (s.placedBlocks.filter rowFull).length = s.placedBlocks.countP rowFull :=
      (List.countP_eq_length_filter _ _).symm
    have h3 : (s.placedBlocks.filter (fun row => !(rowFull row))).length =
        s.placedBlocks.countP (fun row => !(rowFull row)) :=
      (List.countP_eq_length_filter _ _).symm
    have h4 : s.placedBlocks.countP (fun row => ¬ rowFull row = true) =
        s.placedBlocks.countP (fun row => !(rowFull row)) := by
      apply List.countP_congr
      intro row _
      simp
    omega
  have hfeq : (s.placedBlocks.filter fun row =>
      !((row.filter BlockCell.placed).length == row.length)) =
      s.placedBlocks.filter (fun row => !(rowFull row)) := rfl
  constructor
  · show List.replicate (s.placedBlocks.length -
        (s.placedBlocks.filter fun row =>
          !((row.filter BlockCell.placed).length == row.length)).length)
        (List.replicate Constants.GRID_WIDTH { placed := false, colour := "" }) ++
      (s.placedBlocks.filter fun row =>
        !((row.filter BlockCell.placed).length == row.length)) = _
    rw [hfeq, hsplit]
  · show s.score + (s.placedBlocks.length -
        (s.placedBlocks.filter fun row =>
          !((row.filter BlockCell.placed).length == row.length)).length) * 100 = _
    rw [hfeq, hsplit]

/-- C7: `restart` on a running state is the identity; on an ended state it
rebuilds the initial state except that the high score becomes
`max score highScore` and the falling/next pair comes from two further
`drawFromBag` calls continuing the previous seed/bag chain, with score,
level, line accumulator, grid, held block and hold gate reset. -/
theorem C7_restart_carries_only_highscore (s : State) :
    (s.gameEnd = false → restartGame s = s) ∧
    (s.gameEnd = true →
      (restartGame s).gameEnd = false ∧
      (restartGame s).score = 0 ∧
      (restartGame s).level = 1 ∧
      (restartGame s).linesCleared = 0 ∧
      (restartGame s).placedBlocks = emptyGrid ∧
      (restartGame s).heldBlock = none ∧
      (restartGame s).blockHeldDuringFall = false ∧
      (restartGame s).highScore = max s.score s.highScore ∧
      (restartGame s).fallingBlock = (drawFromBag s.currentSeed s.currentBag).drawnBlock ∧
      (restartGame s).nextBlock =
        (drawFromBag (drawFromBag s.currentSeed s.currentBag).newSeed
          (drawFromBag s.currentSeed s.currentBag).newBag).drawnBlock ∧
      (restartGame s).currentSeed =
        (drawFromBag (drawFromBag s.currentSeed s.currentBag).newSeed
          (drawFromBag s.currentSeed s.currentBag).newBag).newSeed ∧
      (restartGame s).currentBag =
        (drawFromBag (drawFromBag s.currentSeed s.currentBag).newSeed
          (drawFromBag s.currentSeed s.currentBag).newBag).newBag) := by
  constructor
  · intro h
    unfold restartGame
    rw [h]
    rfl
  · intro h
    have hre : restartGame s =
        { initialState with
          highScore := max s.score s.highScore
          fallingBlock := (drawFromBag s.currentSeed s.currentBag).drawnBlock
          nextBlock :=
            (drawFromBag (drawFromBag s.currentSeed s.currentBag).newSeed
              (drawFromBag s.currentSeed s.currentBag).newBag).drawnBlock
          blockHeldDuringFall := false
          heldBlock := none
          currentSeed :=
            (drawFromBag (drawFromBag s.currentSeed s.currentBag).newSeed
              (drawFromBag s.currentSeed s.currentBag).newBag).newSeed
          currentBag :=
            (drawFromBag (drawFromBag s.currentSeed s.currentBag).newSeed
              (drawFromBag s.currentSeed s.currentBag).newBag).newBag } := by
      unfold restartGame
      rw [h]
      rfl
    rw [hre]
    exact ⟨rfl, rfl, rfl, rfl, rfl, rfl, rfl, rfl, rfl, rfl, rfl, rfl⟩

/-- C7 witness: a running state passes through unchanged; the same state
flagged as ended resets every listed field. -/
theorem C7_restart_carries_only_highscore_witness :
    (sampleState.gameEnd = false ∧ restartGame sampleState = sampleState) ∧
    (({ sampleState with gameEnd := true } : State).gameEnd = true ∧
      ((restartGame { sampleState with gameEnd := true }).gameEnd = false ∧
       (restartGame { sampleState with gameEnd := true }).score = 0 ∧
       (restartGame { sampleState with gameEnd := true }).level = 1 ∧
       (restartGame { sampleState with gameEnd := true }).linesCleared = 0 ∧
       (restartGame { sampleState with gameEnd := true }).placedBlocks = emptyGrid ∧
       (restartGame { sampleState with gameEnd := true }).heldBlock = none ∧
       (restartGame { sampleState with gameEnd := true }).blockHeldDuringFall = false ∧
       (restartGame { sampleState with gameEnd := true }).highScore =
         max ({ sampleState with gameEnd := true } : State).score
           ({ sampleState with gameEnd := true } : State).highScore ∧
       (restartGame { sampleState with gameEnd := true }).fallingBlock =
         (drawFromBag ({ sampleState with gameEnd := true } : State).currentSeed
           ({ sampleState with gameEnd := true } : State).currentBag).drawnBlock ∧
       (restartGame { sampleState with gameEnd := true }).nextBlock =
         (drawFromBag
           (drawFromBag ({ sampleState with gameEnd := true } : State).currentSeed
             ({ sampleState with gameEnd := true } : State).currentBag).newSeed
           (drawFromBag ({ sampleState with gameEnd := true } : State).currentSeed
             ({ sampleState with gameEnd := true } : State).currentBag).newBag).drawnBlock ∧
       (restartGame { sampleState with gameEnd := true }).currentSeed =
         (drawFromBag
           (drawFromBag ({ sampleState with gameEnd := true } : State).currentSeed
             ({ sampleState with gameEnd := true } : State).currentBag).newSeed
           (drawFromBag ({ sampleState with gameEnd := true } : State).currentSeed
             ({ sampleState with gameEnd := true } : State).currentBag).newBag).newSeed ∧
       (restartGame { sampleState with gameEnd := true }).currentBag =
         (drawFromBag
           (drawFromBag ({ sampleState with gameEnd := true } : State).currentSeed
             ({ sampleState with gameEnd := true } : State).currentBag).newSeed
           (drawFromBag ({ sampleState with gameEnd := true } : State).currentSeed
             ({ sampleState with gameEnd := true } : State).currentBag).newBag).newBag)) :=
  ⟨⟨rfl, (C7_restart_carries_only_highscore sampleState).1 rfl⟩,
   ⟨rfl, (C7_restart_carries_only_highscore { sampleState with gameEnd := true }).2 rfl⟩⟩

/-- C8: `holdBlock` on a state whose hold gate is set returns the state
unchanged, two holds in a row collapse to one (the second is always a
no-op), and every lock clears the gate again. -/
theorem C8_hold_gate_enforced (s : State) :
    (s.blockHeldDuringFall = true → holdBlock s = s) ∧
    holdBlock (holdBlock s) = holdBlock s ∧
    (handleBlockLocking s).blockHeldDuringFall = false := by
  have h1 : ∀ t : State, t.blockHeldDuringFall = true → holdBlock t = t := by
    intro t ht
    unfold holdBlock
    rw [ht]
    rfl
  refine ⟨h1 s, ?_, ?_⟩
  · by_cases hb : s.blockHeldDuringFall = true
    · rw [h1 s hb]
      exact h1 s hb
    · have hset : (holdBlock s).blockHeldDuringFall = true := by
        unfold holdBlock
        rw [Bool.not_eq_true] at hb
        rw [hb]
        rfl
      exact h1 _ hset
  · rfl

/-- C8 witness: the gate facts at a concrete gated state. -/
theorem C8_hold_gate_enforced_witness :
    ({ sampleState with blockHeldDuringFall := true } : State).blockHeldDuringFall = true ∧
    (holdBlock { sampleState with blockHeldDuringFall := true } =
      { sampleState with blockHeldDuringFall := true } ∧
     holdBlock (holdBlock { sampleState with blockHeldDuringFall := true }) =
      holdBlock { sampleState with blockHeldDuringFall := true } ∧
     (handleBlockLocking { sampleState with blockHeldDuringFall := true }).blockHeldDuringFall
      = false) :=
  ⟨rfl,
   (C8_hold_gate_enforced { sampleState with blockHeldDuringFall := true }).1 rfl,
   (C8_hold_gate_enforced { sampleState with blockHeldDuringFall := true }).2.1,
   (C8_hold_gate_enforced { sampleState with blockHeldDuringFall := true }).2.2⟩

/-- C9 (amended): rotation is a no-op exactly under the code's square test —
whenever the falling block's cells span exactly 2 distinct x and 2 distinct
y coordinates (as every `SQUARE`-kind block the game constructs does, at
spawn and after any translation); the kind tag itself is never consulted,
see the counterexample. -/
theorem C9_square_rotation_noop (s : State)
    (hx : (s.fallingBlock.cells.map Cell.x).dedup.length = 2)
    (hy : (s.fallingBlock.cells.map Cell.y).dedup.length = 2) :
    rotateBlock s = s ∧ (rotateBlock s).fallingBlock = s.fallingBlock := by
  have h : rotateBlock s = s := by
    unfold rotateBlock
    simp [hx, hy]
  exact ⟨h, by rw [h]⟩

/-- C9 witness: a spawned square block does not rotate. -/
theorem C9_square_rotation_noop_witness :
    (sampleState.fallingBlock.cells.map Cell.x).dedup.length = 2 ∧
    (sampleState.fallingBlock.cells.map Cell.y).dedup.length = 2 ∧
    (rotateBlock sampleState = sampleState ∧
     (rotateBlock sampleState).fallingBlock = sampleState.fallingBlock) :=
  ⟨by decide, by decide, C9_square_rotation_noop sampleState (by decide) (by decide)⟩

/-- C9 counterexample: a block tagged `SQUARE` whose cells form a horizontal
line is rotated by `rotateBlock`, so the claim quantified over the kind
alone is false: the guard is geometric, not kind-based. -/
theorem C9_counterexample :
    mislabelledSquareState.fallingBlock.type = BlockType.SQUARE ∧
    (rotateBlock mislabelledSquareState).fallingBlock ≠
      mislabelledSquareState.fallingBlock :=
  ⟨rfl, by decide⟩

/-- C10: whenever the hold actually fires (gate down), the new falling block
is rebuilt by the spawn constructor from the held kind (or from the next
block's kind when nothing was held) — not placed at the outgoing block's
position — and the stored held block is the spawn constructor applied to
the outgoing block's kind, so only the kind survives, not the position. -/
theorem C10_hold_rebuilds_at_spawn (s : State) (hb : s.blockHeldDuringFall = false) :
    (holdBlock s).fallingBlock =
      createFallingBlock (match s.heldBlock with
        | some held => held.type
        | none => s.nextBlock.type) ∧
    (holdBlock s).heldBlock = some (createFallingBlock s.fallingBlock.type) ∧
    (holdBlock s).fallingBlock.type = (match s.heldBlock with
        | some held => held.type
        | none => s.nextBlock.type) := by
  have hunfold : holdBlock s = { s with
      fallingBlock := createFallingBlock (match s.heldBlock with
        | some held => held.type
        | none => s.nextBlock.type)
      heldBlock := some (createFallingBlock s.fallingBlock.type)
      blockHeldDuringFall := true
      nextBlock := (if s.heldBlock.isSome then
          { drawnBlock := s.nextBlock, newSeed := s.currentSeed,
            newBag := s.currentBag }
        else drawFromBag s.currentSeed s.currentBag).drawnBlock
      currentSeed := (if s.heldBlock.isSome then
          { drawnBlock := s.nextBlock, newSeed := s.currentSeed,
            newBag := s.currentBag }
        else drawFromBag s.currentSeed s.currentBag).newSeed
      currentBag := (if s.heldBlock.isSome then
          { drawnBlock := s.nextBlock, newSeed := s.currentSeed,
            newBag := s.currentBag }
        else drawFromBag s.currentSeed s.currentBag).newBag } := by
    unfold holdBlock
    rw [hb]
    rfl
  rw [hunfold]
  exact ⟨rfl, rfl, createFallingBlock_type _⟩

/-- C10 witness: holding from a fresh state with nothing held rebuilds both
blocks with the spawn constructors. -/
theorem C10_hold_rebuilds_at_spawn_witness :
    sampleState.blockHeldDuringFall = false ∧
    ((holdBlock sampleState).fallingBlock =
      createFallingBlock (match sampleState.heldBlock with
        | some held => held.type
        | none => sampleState.nextBlock.type) ∧
     (holdBlock sampleState).heldBlock =
      some (createFallingBlock sampleState.fallingBlock.type) ∧
     (holdBlock sampleState).fallingBlock.type = (match sampleState.heldBlock with
        | some held => held.type
        | none => sampleState.nextBlock.type)) :=
  ⟨rfl, C10_hold_rebuilds_at_spawn sampleState rfl⟩
